import Mathlib

/-!
Verification of the capability-key / session-token authentication and
encrypted-storage subsystem of the threagile server (pkg/model/model.go).

Bytes are modelled as `Nat` values (understood mod 256 where relevant),
byte strings as `List Nat`.  The Go maps backing the token registry and
the throttler are modelled as association lists with insert-overwrite
semantics.  External library primitives that the repository merely calls
(AES-GCM Seal and Open, gzip compress/decompress, Argon2id) are parameters of
the embedded functions, constrained in theorems only by their documented
contracts; the hash helpers (`crypto/sha512`, `hash/fnv`) are implemented
concretely below, following FIPS 180-4 and the FNV-1a reference.
-/

namespace Threagile

/-- Association-list lookup, mirroring a Go `map[string]V` read. -/
def lookupA {α : Type} (m : List (String × α)) (k : String) : Option α :=
  match m with
  | [] => none
  | (k2, v) :: rest => if k2 = k then some v else lookupA rest k

/-- Association-list insert with overwrite, mirroring a Go `m[k] = v`. -/
def insertA {α : Type} (m : List (String × α)) (k : String) (v : α) :
    List (String × α) :=
  match m with
  | [] => [(k, v)]
  | (k2, v2) :: rest =>
      if k2 = k then (k, v) :: rest else (k2, v2) :: insertA rest k v

/-- Association-list removal, mirroring a Go `delete(m, k)`. -/
def eraseA {α : Type} (m : List (String × α)) (k : String) :
    List (String × α) :=
  match m with
  | [] => []
  | (k2, v) :: rest => if k2 = k then eraseA rest k else (k2, v) :: eraseA rest k

/-- The key size constant of model.go (`const keySize = 32`). -/
def keySize : Nat := 32

/-- Embedding of `xor` (model.go:4138): byte-wise XOR of two byte strings.
The Go function panics when the operand lengths differ; the panic is
modelled as `none`. -/
def xorgo (key : List Nat) (x : List Nat) : Option (List Nat) :=
  if key.length = x.length then
    some (List.zipWith (fun a b => a ^^^ b) key x)
  else
    none

theorem xorgo_length {key x out : List Nat} (h : xorgo key x = some out) :
    out.length = x.length := by
  unfold xorgo at h
  by_cases hlen : key.length = x.length
  · simp [hlen] at h
    subst h
    simp [List.length_zipWith, hlen]
  · simp [hlen] at h

theorem xorgo_of_length {key x : List Nat} (h : key.length = x.length) :
    xorgo key x = some (List.zipWith (fun a b => a ^^^ b) key x) := by
  simp [xorgo, h]

/-- XOR of equal-length byte strings is an involution. -/
theorem zipWith_xor_cancel (k r : List Nat) (h : k.length = r.length) :
    List.zipWith (fun a b => a ^^^ b)
      (List.zipWith (fun a b => a ^^^ b) k r) r = k := by
  induction k generalizing r with
  | nil => cases r <;> simp
  | cons a as ih =>
      cases r with
      | nil => simp at h
      | cons b bs =>
          simp only [List.zipWith]
          have hlen : as.length = bs.length := by
            simpa using h
          simp [Nat.xor_assoc, ih bs hlen]

/-! ### SHA-2 (FIPS 180-4), backing the `crypto/sha512` call in `hashSHA256`
and the spec-side SHA-256 digest. -/

/-- Big-endian byte expansion: `beBytes n v` is the `n`-byte big-endian
encoding of `v` (low bytes of `v` at the end). -/
def beBytes : Nat → Nat → List Nat
  | 0, _ => []
  | n + 1, v => beBytes n (v / 256) ++ [v % 256]

theorem beBytes_length (n v : Nat) : (beBytes n v).length = n := by
  induction n generalizing v with
  | zero => simp [beBytes]
  | succ m ih => simp [beBytes, ih]

/-- Parses a byte list into big-endian 64-bit words (8 bytes per word). -/
def beWords8 : List Nat → List Nat
  | b0 :: b1 :: b2 :: b3 :: b4 :: b5 :: b6 :: b7 :: rest =>
      (((((((b0 * 256 + b1) * 256 + b2) * 256 + b3) * 256 + b4) * 256 + b5)
        * 256 + b6) * 256 + b7) :: beWords8 rest
  | _ => []

/-- Parses a byte list into big-endian 32-bit words (4 bytes per word). -/
def beWords4 : List Nat → List Nat
  | b0 :: b1 :: b2 :: b3 :: rest =>
      (((b0 * 256 + b1) * 256 + b2) * 256 + b3) :: beWords4 rest
  | _ => []

def mask64 : Nat := 18446744073709551615

def mask32 : Nat := 4294967295

def rotr64 (n x : Nat) : Nat := ((x >>> n) ||| (x <<< (64 - n))) &&& mask64

def rotr32 (n x : Nat) : Nat := ((x >>> n) ||| (x <<< (32 - n))) &&& mask32

structure Sha2State where
  sa : Nat
  sb : Nat
  sc : Nat
  sd : Nat
  se : Nat
  sf : Nat
  sg : Nat
  sh : Nat

def K512 : List Nat :=
  [4794697086780616226, 8158064640168781261, 13096744586834688815,
   16840607885511220156, 4131703408338449720, 6480981068601479193,
   10538285296894168987, 12329834152419229976, 15566598209576043074,
   1334009975649890238, 2608012711638119052, 6128411473006802146,
   8268148722764581231, 9286055187155687089, 11230858885718282805,
   13951009754708518548, 16472876342353939154, 17275323862435702243,
   1135362057144423861, 2597628984639134821, 3308224258029322869,
   5365058923640841347, 6679025012923562964, 8573033837759648693,
   10970295158949994411, 12119686244451234320, 12683024718118986047,
   13788192230050041572, 14330467153632333762, 15395433587784984357,
   489312712824947311, 1452737877330783856, 2861767655752347644,
   3322285676063803686, 5560940570517711597, 5996557281743188959,
   7280758554555802590, 8532644243296465576, 9350256976987008742,
   10552545826968843579, 11727347734174303076, 12113106623233404929,
   14000437183269869457, 14369950271660146224, 15101387698204529176,
   15463397548674623760, 17586052441742319658, 1182934255886127544,
   1847814050463011016, 2177327727835720531, 2830643537854262169,
   3796741975233480872, 4115178125766777443, 5681478168544905931,
   6601373596472566643, 7507060721942968483, 8399075790359081724,
   8693463985226723168, 9568029438360202098, 10144078919501101548,
   10430055236837252648, 11840083180663258601, 13761210420658862357,
   14299343276471374635, 14566680578165727644, 15097957966210449927,
   16922976911328602910, 17689382322260857208, 500013540394364858,
   748580250866718886, 1242879168328830382, 1977374033974150939,
   2944078676154940804, 3659926193048069267, 4368137639120453308,
   4836135668995329356, 5532061633213252278, 6448918945643986474,
   6902733635092675308, 7801388544844847127]

def sha512Init : Sha2State :=
  ⟨7640891576956012808, 13503953896175478587,
   4354685564936845355, 11912009170470909681,
   5840696475078001361, 11170449401992604703,
   2270897969802886507, 6620516959819538809⟩

def sha512Pad (msg : List Nat) : List Nat :=
  msg ++ [128] ++ List.replicate ((240 - ((msg.length + 1) % 128)) % 128) 0
      ++ beBytes 16 (8 * msg.length)

/-- Message-schedule extension for SHA-512; `acc` holds the schedule so far
in reverse order, `fuel` counts the words still to produce. -/
def sha512Extend : Nat → List Nat → List Nat
  | 0, acc => acc.reverse
  | fuel + 1, acc =>
      let at2 := (acc.get? 1).getD 0
      let at7 := (acc.get? 6).getD 0
      let at15 := (acc.get? 14).getD 0
      let at16 := (acc.get? 15).getD 0
      let s0 := rotr64 1 at15 ^^^ rotr64 8 at15 ^^^ (at15 >>> 7)
      let s1 := rotr64 19 at2 ^^^ rotr64 61 at2 ^^^ (at2 >>> 6)
      sha512Extend fuel (((at16 + s0 + at7 + s1) &&& mask64) :: acc)

def sha512Round (k w : Nat) (st : Sha2State) : Sha2State :=
  let s1 := rotr64 14 st.se ^^^ rotr64 18 st.se ^^^ rotr64 41 st.se
  let ch := (st.se &&& st.sf) ^^^ ((st.se ^^^ mask64) &&& st.sg)
  let t1 := (st.sh + s1 + ch + k + w) &&& mask64
  let s0 := rotr64 28 st.sa ^^^ rotr64 34 st.sa ^^^ rotr64 39 st.sa
  let mj := (st.sa &&& st.sb) ^^^ (st.sa &&& st.sc) ^^^ (st.sb &&& st.sc)
  let t2 := (s0 + mj) &&& mask64
  ⟨(t1 + t2) &&& mask64, st.sa, st.sb, st.sc, (st.sd + t1) &&& mask64,
   st.se, st.sf, st.sg⟩

def sha512Rounds : List Nat → List Nat → Sha2State → Sha2State
  | k :: ks, w :: ws, st => sha512Rounds ks ws (sha512Round k w st)
  | _, _, st => st

def sha2Add (x y : Sha2State) (mask : Nat) : Sha2State :=
  ⟨(x.sa + y.sa) &&& mask, (x.sb + y.sb) &&& mask, (x.sc + y.sc) &&& mask,
   (x.sd + y.sd) &&& mask, (x.se + y.se) &&& mask, (x.sf + y.sf) &&& mask,
   (x.sg + y.sg) &&& mask, (x.sh + y.sh) &&& mask⟩

/-- Processes the padded message 128-byte block by block; `fuel` bounds the
number of blocks left (any value at least the block count is adequate). -/
def sha512Blocks : Nat → List Nat → Sha2State → Sha2State
  | 0, _, st => st
  | _ + 1, [], st => st
  | fuel + 1, b :: bs, st =>
      let block := (b :: bs).take 128
      let ws := sha512Extend 64 (beWords8 block).reverse
      let st2 := sha512Rounds K512 ws st
      sha512Blocks fuel ((b :: bs).drop 128) (sha2Add st st2 mask64)

def sha2Digest (st : Sha2State) (wordBytes : Nat) : List Nat :=
  beBytes wordBytes st.sa ++ beBytes wordBytes st.sb ++ beBytes wordBytes st.sc
    ++ beBytes wordBytes st.sd ++ beBytes wordBytes st.se
    ++ beBytes wordBytes st.sf ++ beBytes wordBytes st.sg
    ++ beBytes wordBytes st.sh

/-- SHA-512 digest (64 bytes) of a byte string, per FIPS 180-4; this is the
primitive behind the `sha512.New()` hasher that model.go:4059 uses. -/
def sha512Bytes (msg : List Nat) : List Nat :=
  let padded := sha512Pad msg
  sha2Digest (sha512Blocks padded.length padded sha512Init) 8

theorem sha512Bytes_length (msg : List Nat) : (sha512Bytes msg).length = 64 := by
  simp [sha512Bytes, sha2Digest, beBytes_length]

def K256 : List Nat :=
  [1116352408, 1899447441, 3049323471, 3921009573, 961987163, 1508970993,
   2453635748, 2870763221, 3624381080, 310598401, 607225278, 1426881987,
   1925078388, 2162078206, 2614888103, 3248222580, 3835390401, 4022224774,
   264347078, 604807628, 770255983, 1249150122, 1555081692, 1996064986,
   2554220882, 2821834349, 2952996808, 3210313671, 3336571891, 3584528711,
   113926993, 338241895, 666307205, 773529912, 1294757372, 1396182291,
   1695183700, 1986661051, 2177026350, 2456956037, 2730485921, 2820302411,
   3259730800, 3345764771, 3516065817, 3600352804, 4094571909, 275423344,
   430227734, 506948616, 659060556, 883997877, 958139571, 1322822218,
   1537002063, 1747873779, 1955562222, 2024104815, 2227730452, 2361852424,
   2428436474, 2756734187, 3204031479, 3329325298]

def sha256Init : Sha2State :=
  ⟨1779033703, 3144134277, 1013904242, 2773480762,
   1359893119, 2600822924, 528734635, 1541459225⟩

def sha256Pad (msg : List Nat) : List Nat :=
  msg ++ [128] ++ List.replicate ((120 - ((msg.length + 1) % 64)) % 64) 0
      ++ beBytes 8 (8 * msg.length)

/-- Message-schedule extension for SHA-256; `acc` holds the schedule so far
in reverse order. -/
def sha256Extend : Nat → List Nat → List Nat
  | 0, acc => acc.reverse
  | fuel + 1, acc =>
      let at2 := (acc.get? 1).getD 0
      let at7 := (acc.get? 6).getD 0
      let at15 := (acc.get? 14).getD 0
      let at16 := (acc.get? 15).getD 0
      let s0 := rotr32 7 at15 ^^^ rotr32 18 at15 ^^^ (at15 >>> 3)
      let s1 := rotr32 17 at2 ^^^ rotr32 19 at2 ^^^ (at2 >>> 10)
      sha256Extend fuel (((at16 + s0 + at7 + s1) &&& mask32) :: acc)

def sha256Round (k w : Nat) (st : Sha2State) : Sha2State :=
  let s1 := rotr32 6 st.se ^^^ rotr32 11 st.se ^^^ rotr32 25 st.se
  let ch := (st.se &&& st.sf) ^^^ ((st.se ^^^ mask32) &&& st.sg)
  let t1 := (st.sh + s1 + ch + k + w) &&& mask32
  let s0 := rotr32 2 st.sa ^^^ rotr32 13 st.sa ^^^ rotr32 22 st.sa
  let mj := (st.sa &&& st.sb) ^^^ (st.sa &&& st.sc) ^^^ (st.sb &&& st.sc)
  let t2 := (s0 + mj) &&& mask32
  ⟨(t1 + t2) &&& mask32, st.sa, st.sb, st.sc, (st.sd + t1) &&& mask32,
   st.se, st.sf, st.sg⟩

def sha256Rounds : List Nat → List Nat → Sha2State → Sha2State
  | k :: ks, w :: ws, st => sha256Rounds ks ws (sha256Round k w st)
  | _, _, st => st

/-- Processes the padded message 64-byte block by block. -/
def sha256Blocks : Nat → List Nat → Sha2State → Sha2State
  | 0, _, st => st
  | _ + 1, [], st => st
  | fuel + 1, b :: bs, st =>
      let block := (b :: bs).take 64
      let ws := sha256Extend 48 (beWords4 block).reverse
      let st2 := sha256Rounds K256 ws st
      sha256Blocks fuel ((b :: bs).drop 64) (sha2Add st st2 mask32)

/-- Modelled from the spec: the spec indexes token records by SHA-256 of the
token; `crypto/sha256` is absent from src/, so the digest (32 bytes) is
defined here per FIPS 180-4 to compare against what the code computes. -/
def sha256Bytes (msg : List Nat) : List Nat :=
  let padded := sha256Pad msg
  sha2Digest (sha256Blocks padded.length padded sha256Init) 4

theorem sha256Bytes_length (msg : List Nat) : (sha256Bytes msg).length = 32 := by
  simp [sha256Bytes, sha2Digest, beBytes_length]

/-- Lower-case hex digit for a value below 16, as `encoding/hex` prints. -/
def hexDigit (n : Nat) : Char :=
  if n < 10 then Char.ofNat (48 + n) else Char.ofNat (87 + n)

/-- Embedding of `hex.EncodeToString`: lower-case hex of a byte string. -/
def hexEncode (bs : List Nat) : String :=
  String.mk (bs.flatMap (fun b => [hexDigit ((b / 16) % 16), hexDigit (b % 16)]))

theorem hexEncode_length (bs : List Nat) :
    (hexEncode bs).length = 2 * bs.length := by
  induction bs with
  | nil => rfl
  | cons b rest ih =>
      simp only [hexEncode, String.length, List.flatMap_cons, List.length_append,
        List.length_cons, List.length_nil] at *
      omega

/-- Embedding of `hashSHA256` (model.go:4058): despite its name the Go
function feeds the bytes to `sha512.New()` and hex-encodes the digest. -/
def hashSHA256 (key : List Nat) : String :=
  hexEncode (sha512Bytes key)

/-- Modelled from the spec: the hex digest of SHA-256 of the token, which is
the index the spec says the token record is stored under. -/
def sha256hexDigest (bs : List Nat) : String :=
  hexEncode (sha256Bytes bs)

/-! ### EncryptedModelVault: `writeModelYAML` / `readModel` -/

/-- Embedding of `generateKeyFromAlreadyStrongRandomInput` (model.go:3960):
the salt is the first 16 bytes of the capability key, the Argon2id secret the
remaining bytes, with memory 64 MiB, 3 iterations, parallelism 2 and a
32-byte output.  The Argon2id primitive lives in `golang.org/x/crypto`, so it
is a parameter `argonIDKey secret salt iterations memoryKiB parallelism
keyLength`. -/
def generateKeyFromAlreadyStrongRandomInput
    (argonIDKey : List Nat → List Nat → Nat → Nat → Nat → Nat → List Nat)
    (alreadyRandomInput : List Nat) : List Nat :=
  argonIDKey (alreadyRandomInput.drop 16) (alreadyRandomInput.take 16)
    3 (64 * 1024) 2 keySize

/-- Outcome of `readModel` (model.go:3770).  `panicked` models the Go slice
panic on `fileBytes[12:]`; `failed` models every error response path (which
carries no plaintext); `ok` carries the returned YAML text bytes. -/
inductive ReadOutcome
  | panicked
  | failed
  | ok (yamlBytes : List Nat)
deriving DecidableEq

/-- Embedding of the crypto pipeline of `writeModelYAML` (model.go:3856):
gzip the YAML text, derive the symmetric key, sealGCM with AES-256-GCM under a
fresh 12-byte random nonce and no associated data, and persist the bytes
`nonce ++ ciphertext`.  `gzWrite` stands for the `compress/gzip` writer and
`sealGCM` for `cipher.AEAD.Seal`; the nonce drawn from `crypto/rand` is a
parameter.  The resulting list is exactly the on-disk document. -/
def writeModelYAML
    (argonIDKey : List Nat → List Nat → Nat → Nat → Nat → Nat → List Nat)
    (sealGCM : List Nat → List Nat → List Nat → List Nat)
    (gzWrite : List Nat → List Nat)
    (key nonce yaml : List Nat) : List Nat :=
  let plaintext := gzWrite yaml
  let cryptoKey := generateKeyFromAlreadyStrongRandomInput argonIDKey key
  let ciphertext := sealGCM cryptoKey nonce plaintext
  nonce ++ ciphertext

/-- Embedding of `readModel` (model.go:3770) from the loaded file bytes on:
`nonce := fileBytes[0:12]`, `ciphertext := fileBytes[12:]`, open the AEAD,
gunzip, unmarshal.  For a file shorter than 12 bytes the Go expression
`fileBytes[12:]` panics (its upper bound defaults to `len(fileBytes) < 12`;
the preceding `fileBytes[0:12]` stays within the at-least-512-byte capacity
that `os.ReadFile` allocates), modelled as `ReadOutcome.panicked`.
`aeadOpen` stands for `cipher.AEAD.Open` (`none` = tag failure), `gunzip`
for the `compress/gzip` reader, and `yamlUnmarshalOk` for whether
`yaml.Unmarshal` accepts the text; every error path returns no text. -/
def readModel
    (argonIDKey : List Nat → List Nat → Nat → Nat → Nat → Nat → List Nat)
    (aeadOpen : List Nat → List Nat → List Nat → Option (List Nat))
    (gunzip : List Nat → Option (List Nat))
    (yamlUnmarshalOk : List Nat → Bool)
    (key fileBytes : List Nat) : ReadOutcome :=
  let cryptoKey := generateKeyFromAlreadyStrongRandomInput argonIDKey key
  if fileBytes.length < 12 then ReadOutcome.panicked
  else
    let nonce := fileBytes.take 12
    let ciphertext := fileBytes.drop 12
    match aeadOpen cryptoKey nonce ciphertext with
    | none => ReadOutcome.failed
    | some plaintext =>
        match gunzip plaintext with
        | none => ReadOutcome.failed
        | some yamlBytes =>
            if yamlUnmarshalOk yamlBytes then ReadOutcome.ok yamlBytes
            else ReadOutcome.failed

/-- Flips bit `bit` of the byte at zero-based index `i`. -/
def flipBitAt : List Nat → Nat → Nat → List Nat
  | [], _, _ => []
  | b :: bs, 0, bit => (b ^^^ (1 <<< bit)) :: bs
  | b :: bs, i + 1, bit => b :: flipBitAt bs i bit

theorem flipBitAt_length (bs : List Nat) (i bit : Nat) :
    (flipBitAt bs i bit).length = bs.length := by
  induction bs generalizing i with
  | nil => rfl
  | cons b rest ih =>
      cases i with
      | zero => rfl
      | succ j => simp [flipBitAt, ih]

theorem flipBitAt_append_right (a c : List Nat) (i bit : Nat)
    (h : a.length ≤ i) :
    flipBitAt (a ++ c) i bit = a ++ flipBitAt c (i - a.length) bit := by
  induction a generalizing i with
  | nil => simp
  | cons b rest ih =>
      cases i with
      | zero => simp at h
      | succ j =>
          have hj : rest.length ≤ j := by simpa using h
          simp [flipBitAt, ih j hj, Nat.succ_sub_succ]

/-! ### Toy instances of the external crypto primitives, used to witness the
vault theorems at concrete inputs.  `toySeal` appends a 16-byte tag whose
first byte is an additive checksum, so it detects any single-bit flip. -/

def toyArgon (secret salt : List Nat) (_ _ _ _ : Nat) : List Nat :=
  secret ++ salt

def toyGzip (bs : List Nat) : List Nat := 31 :: 139 :: bs

def toyGunzip (bs : List Nat) : Option (List Nat) :=
  match bs with
  | 31 :: 139 :: rest => some rest
  | _ => none

def toyTag (bs : List Nat) : Nat :=
  bs.foldl (fun a b => (a + b) % 256) 0

def toySeal (k n pt : List Nat) : List Nat :=
  pt ++ toyTag (k ++ n ++ pt) :: List.replicate 15 0

def toyOpen (k n ct : List Nat) : Option (List Nat) :=
  let pt := ct.take (ct.length - 16)
  if 16 ≤ ct.length ∧
      ct.drop (ct.length - 16) = toyTag (k ++ n ++ pt) :: List.replicate 15 0 then
    some pt
  else
    none

/-- C1: Vault round-trip: for a UTF-8 text within the 50,000,000-byte size
ceiling and a 32-byte capability key, writing the text via `writeModelYAML`
(gzip, then AES-256-GCM seal under the Argon2id-derived key, persisted as
nonce followed by ciphertext) and then reading via `readModel` returns
exactly the same bytes.  The gzip and AES-GCM primitives are external
library calls, constrained here by their documented round-trip contracts at
the written values; `hyaml` records that the YAML unmarshal step of
`readModel` accepts the text. -/
theorem C1_vault_round_trip
    (argonIDKey : List Nat → List Nat → Nat → Nat → Nat → Nat → List Nat)
    (sealGCM : List Nat → List Nat → List Nat → List Nat)
    (aeadOpen : List Nat → List Nat → List Nat → Option (List Nat))
    (gzWrite : List Nat → List Nat) (gunzip : List Nat → Option (List Nat))
    (yamlUnmarshalOk : List Nat → Bool)
    (key nonce yaml : List Nat)
    (hkey : key.length = keySize)
    (hsize : yaml.length ≤ 50000000)
    (hnonce : nonce.length = 12)
    (hopen : aeadOpen (generateKeyFromAlreadyStrongRandomInput argonIDKey key)
        nonce
        (sealGCM (generateKeyFromAlreadyStrongRandomInput argonIDKey key)
          nonce (gzWrite yaml))
        = some (gzWrite yaml))
    (hgz : gunzip (gzWrite yaml) = some yaml)
    (hyaml : yamlUnmarshalOk yaml = true) :
    readModel argonIDKey aeadOpen gunzip yamlUnmarshalOk key
      (writeModelYAML argonIDKey sealGCM gzWrite key nonce yaml)
      = ReadOutcome.ok yaml := by
  have hlen : ¬ ((writeModelYAML argonIDKey sealGCM gzWrite key nonce
      yaml).length < 12) := by
    simp [writeModelYAML, List.length_append, hnonce]
  simp only [readModel, writeModelYAML] at *
  rw [if_neg hlen, List.take_left' hnonce, List.drop_left' hnonce, hopen]
  simp [hgz, hyaml]

/-- Witness for C1: the round trip evaluated with the toy primitives on a
32-byte key, the nonce `[2, …, 2]` and the text `"hi"`. -/
theorem C1_vault_round_trip_witness :
    (List.replicate 32 1 : List Nat).length = keySize ∧
    readModel toyArgon toyOpen toyGunzip (fun _ => true)
      (List.replicate 32 1)
      (writeModelYAML toyArgon toySeal toyGzip (List.replicate 32 1)
        (List.replicate 12 2) [104, 105])
      = ReadOutcome.ok [104, 105] :=
  ⟨by decide,
   C1_vault_round_trip toyArgon toySeal toyOpen toyGzip toyGunzip
     (fun _ => true) (List.replicate 32 1) (List.replicate 12 2) [104, 105]
     (by decide) (by decide) (by decide) (by decide) (by decide) rfl⟩

/-- C2: Tamper detection is atomic: flipping any single bit of the stored
bytes after the 12-byte nonce prefix makes `readModel` fail without
returning any plaintext.  `hauth` is the AES-GCM authenticity contract at
the tampered ciphertext: `Open` rejects it; the theorem shows `readModel`
then takes the integrity-error path, which carries no plaintext at all. -/
theorem C2_tamper_detection
    (argonIDKey : List Nat → List Nat → Nat → Nat → Nat → Nat → List Nat)
    (sealGCM : List Nat → List Nat → List Nat → List Nat)
    (aeadOpen : List Nat → List Nat → List Nat → Option (List Nat))
    (gzWrite : List Nat → List Nat) (gunzip : List Nat → Option (List Nat))
    (yamlUnmarshalOk : List Nat → Bool)
    (key nonce yaml : List Nat) (i bit : Nat)
    (hnonce : nonce.length = 12)
    (hbit : bit < 8)
    (hi : 12 ≤ i)
    (hlt : i < (writeModelYAML argonIDKey sealGCM gzWrite key nonce
      yaml).length)
    (hauth : aeadOpen (generateKeyFromAlreadyStrongRandomInput argonIDKey key)
        nonce
        (flipBitAt (sealGCM (generateKeyFromAlreadyStrongRandomInput
          argonIDKey key) nonce (gzWrite yaml)) (i - 12) bit)
        = none) :
    readModel argonIDKey aeadOpen gunzip yamlUnmarshalOk key
      (flipBitAt (writeModelYAML argonIDKey sealGCM gzWrite key nonce yaml)
        i bit)
      = ReadOutcome.failed := by
  have hsplit : flipBitAt (writeModelYAML argonIDKey sealGCM gzWrite key
      nonce yaml) i bit
      = nonce ++ flipBitAt (sealGCM (generateKeyFromAlreadyStrongRandomInput
          argonIDKey key) nonce (gzWrite yaml)) (i - 12) bit := by
    rw [writeModelYAML]
    rw [flipBitAt_append_right _ _ _ _ (by omega : nonce.length ≤ i), hnonce]
  rw [hsplit]
  have hlen : ¬ ((nonce ++ flipBitAt (sealGCM
      (generateKeyFromAlreadyStrongRandomInput argonIDKey key) nonce
      (gzWrite yaml)) (i - 12) bit).length < 12) := by
    simp [List.length_append, hnonce]
  simp only [readModel]
  rw [if_neg hlen, List.take_left' hnonce, List.drop_left' hnonce, hauth]

/-- Witness for C2: flipping bit 0 of byte 14 (the third ciphertext byte) of
the document written with the toy primitives makes the read fail. -/
theorem C2_tamper_detection_witness :
    12 ≤ 14 ∧
    readModel toyArgon toyOpen toyGunzip (fun _ => true)
      (List.replicate 32 1)
      (flipBitAt (writeModelYAML toyArgon toySeal toyGzip
        (List.replicate 32 1) (List.replicate 12 2) [104, 105]) 14 0)
      = ReadOutcome.failed :=
  ⟨by decide,
   C2_tamper_detection toyArgon toySeal toyOpen toyGzip toyGunzip
     (fun _ => true) (List.replicate 32 1) (List.replicate 12 2) [104, 105]
     14 0 (by decide) (by decide) (by decide) (by decide) (by decide)⟩

/-- C10: the nonce/ciphertext split of `readModel` is in-bounds exactly for
files of at least 12 bytes: every document `writeModelYAML` persists is at
least 28 bytes long (12-byte nonce plus the 16-byte GCM tag overhead stated
by `hsealLen`), so vault-written files never make `readModel` panic, while
any stored file shorter than 12 bytes does. -/
theorem C10_nonce_split_bounds
    (argonIDKey : List Nat → List Nat → Nat → Nat → Nat → Nat → List Nat)
    (sealGCM : List Nat → List Nat → List Nat → List Nat)
    (aeadOpen : List Nat → List Nat → List Nat → Option (List Nat))
    (gzWrite : List Nat → List Nat) (gunzip : List Nat → Option (List Nat))
    (yamlUnmarshalOk : List Nat → Bool)
    (key nonce yaml : List Nat)
    (hnonce : nonce.length = 12)
    (hsealLen : (sealGCM (generateKeyFromAlreadyStrongRandomInput argonIDKey
        key) nonce (gzWrite yaml)).length = (gzWrite yaml).length + 16) :
    28 ≤ (writeModelYAML argonIDKey sealGCM gzWrite key nonce yaml).length
    ∧ readModel argonIDKey aeadOpen gunzip yamlUnmarshalOk key
        (writeModelYAML argonIDKey sealGCM gzWrite key nonce yaml)
        ≠ ReadOutcome.panicked
    ∧ ∀ fileBytes : List Nat, fileBytes.length < 12 →
        readModel argonIDKey aeadOpen gunzip yamlUnmarshalOk key fileBytes
          = ReadOutcome.panicked := by
  have hwlen : (writeModelYAML argonIDKey sealGCM gzWrite key nonce
      yaml).length = 28 + (gzWrite yaml).length := by
    simp [writeModelYAML, List.length_append, hnonce, hsealLen]
    omega
  refine ⟨by omega, ?_, ?_⟩
  · simp only [readModel]
    rw [if_neg (by omega)]
    cases aeadOpen (generateKeyFromAlreadyStrongRandomInput argonIDKey key)
        ((writeModelYAML argonIDKey sealGCM gzWrite key nonce yaml).take 12)
        ((writeModelYAML argonIDKey sealGCM gzWrite key nonce yaml).drop 12) with
    | none => simp
    | some pt =>
        rcases hg : gunzip pt with _ | yb
        · simp [hg]
        · rcases hy : yamlUnmarshalOk yb <;> simp [hg, hy]
  · intro fileBytes hshort
    simp [readModel, hshort]

/-- Witness for C10 with the toy primitives; the final conjunct is applied
to the 3-byte file `[0, 1, 2]`. -/
theorem C10_nonce_split_bounds_witness :
    (List.replicate 12 2 : List Nat).length = 12 ∧
    28 ≤ (writeModelYAML toyArgon toySeal toyGzip (List.replicate 32 1)
      (List.replicate 12 2) [104, 105]).length ∧
    readModel toyArgon toyOpen toyGunzip (fun _ => true)
      (List.replicate 32 1)
      (writeModelYAML toyArgon toySeal toyGzip (List.replicate 32 1)
        (List.replicate 12 2) [104, 105]) ≠ ReadOutcome.panicked ∧
    readModel toyArgon toyOpen toyGunzip (fun _ => true)
      (List.replicate 32 1) [0, 1, 2] = ReadOutcome.panicked := by
  have h := C10_nonce_split_bounds toyArgon toySeal toyOpen toyGzip toyGunzip
    (fun _ => true) (List.replicate 32 1) (List.replicate 12 2) [104, 105]
    (by decide) (by decide)
  exact ⟨by decide, h.1, h.2.1, h.2.2 [0, 1, 2] (by decide)⟩

/-! ### SessionTokenBroker: `createToken` / `checkTokenToFolderName` -/

/-- Embedding of `timeoutStruct` (model.go:4149). -/
structure TimeoutStruct where
  xorRand : List Nat
  createdNanoTime : Int
  lastAccessedNanoTime : Int
deriving DecidableEq

/-- The two global token maps, `mapTokenHashToTimeoutStruct` (model.go:4154)
and `mapFolderNameToTokenHash` (model.go:2472). -/
structure TokenState where
  mapTokenHashToTimeoutStruct : List (String × TimeoutStruct)
  mapFolderNameToTokenHash : List (String × String)
deriving DecidableEq

/-- Both token maps start empty. -/
def emptyTokenState : TokenState := ⟨[], []⟩

/-- Removes the first entry whose value equals `v`, mirroring the
range-and-break loop of `deleteTokenHashFromMaps` (model.go:4180). -/
def eraseFirstValue (m : List (String × String)) (v : String) :
    List (String × String) :=
  match m with
  | [] => []
  | (k, v2) :: rest =>
      if v2 = v then rest else (k, v2) :: eraseFirstValue rest v

/-- Embedding of `deleteTokenHashFromMaps` (model.go:4178): removes the
token-hash record and the first reverse-index entry pointing at it. -/
def deleteTokenHashFromMaps (tokenHash : String) (s : TokenState) :
    TokenState :=
  { mapTokenHashToTimeoutStruct :=
      eraseA s.mapTokenHashToTimeoutStruct tokenHash,
    mapFolderNameToTokenHash :=
      eraseFirstValue s.mapFolderNameToTokenHash tokenHash }

/-- Soft timeout: 30 minutes in nanoseconds (model.go:4171). -/
def softTimeoutNanos : Int := 1800000000000

/-- Hard timeout: 10 hours in nanoseconds (model.go:4171). -/
def hardTimeoutNanos : Int := 36000000000000

/-- Embedding of `housekeepingTokenMaps` (model.go:4158) with the shipped
`extremeShortTimeoutsForTesting = false`: evicts every record idle longer
than the soft timeout or older than the hard timeout, removing both the
record and its reverse-index entry.  The Go code ranges over the map while
deleting the current entry; here the snapshot of entries is folded over. -/
def housekeepingTokenMaps (now : Int) (s : TokenState) : TokenState :=
  s.mapTokenHashToTimeoutStruct.foldl
    (fun acc e =>
      if now - e.2.lastAccessedNanoTime > softTimeoutNanos
          ∨ now - e.2.createdNanoTime > hardTimeoutNanos then
        deleteTokenHashFromMaps e.1 acc
      else acc)
    s

/-- Embedding of the token-issuing core of `createToken` (model.go:2476),
after `checkKeyToFolderName` has resolved the capability key to its tenant
folder name: delete the tenant's previous token record if one exists,
compute `token = key XOR pad` from the fresh random 32-byte pad, run
housekeeping, then install `{pad, now, now}` under `hashSHA256 token` and
point the tenant folder at that hash.  `none` models the `xor` panic on a
length mismatch (impossible by construction). -/
def createToken (now : Int) (xorBytesArr key : List Nat)
    (folderName : String) (s : TokenState) :
    Option (List Nat × TokenState) :=
  let s1 : TokenState :=
    match lookupA s.mapFolderNameToTokenHash folderName with
    | some tokenHash =>
        { s with mapTokenHashToTimeoutStruct :=
            eraseA s.mapTokenHashToTimeoutStruct tokenHash }
    | none => s
  match xorgo key xorBytesArr with
  | none => none
  | some token =>
      let tokenHash := hashSHA256 token
      let s2 := housekeepingTokenMaps now s1
      some (token,
        { mapTokenHashToTimeoutStruct :=
            insertA s2.mapTokenHashToTimeoutStruct tokenHash
              ⟨xorBytesArr, now, now⟩,
          mapFolderNameToTokenHash :=
            insertA s2.mapFolderNameToTokenHash folderName tokenHash })

/-- Embedding of `folderNameFromKey` (model.go:4053): the tenant namespace
path joins the server folder, the key directory and the hex SHA-512 digest
of the key; `filepath.Join` is plain separator joining for these clean
non-empty components. -/
def folderNameFromKey (serverFolder keyDir : String) (key : List Nat) :
    String :=
  serverFolder ++ "/" ++ keyDir ++ "/" ++ hashSHA256 key

/-- Result of `checkTokenToFolderName` (model.go:4094): `panicked` models
the `xor` length panic, `denied` the JSON 404 response, `granted` the
successful resolution; each carries the token state after the call. -/
inductive CheckResult
  | panicked
  | denied (s : TokenState)
  | granted (folderNameOfKey : String) (key : List Nat) (s : TokenState)
deriving DecidableEq

/-- Embedding of `checkTokenToFolderName` (model.go:4113) from the decoded
token on: run housekeeping, look the record up under `hashSHA256 token`,
re-create the key as `token XOR xorRand`, resolve and stat the tenant
folder.  The assignment `timeoutStruct.lastAccessedNanoTime = now`
(model.go:4128) writes to a local variable: a Go map read copies the struct
value and the copy is never stored back, so the map entry stays unchanged
and the state returned on every path is the housekept state `s1`. -/
def checkTokenToFolderName (folderNameFromKeyF : List Nat → String)
    (folderExists : String → Bool) (now : Int) (token : List Nat)
    (s : TokenState) : CheckResult :=
  let s1 := housekeepingTokenMaps now s
  match lookupA s1.mapTokenHashToTimeoutStruct (hashSHA256 token) with
  | some ts =>
      match xorgo token ts.xorRand with
      | none => CheckResult.panicked
      | some key =>
          let folderNameOfKey := folderNameFromKeyF key
          if folderExists folderNameOfKey then
            CheckResult.granted folderNameOfKey key s1
          else
            CheckResult.denied s1
  | none => CheckResult.denied s1

theorem xorgo_involution {k r t : List Nat} (h : xorgo k r = some t) :
    xorgo t r = some k := by
  unfold xorgo at h ⊢
  by_cases hl : k.length = r.length
  · simp only [hl, if_true, Option.some.injEq] at h
    subst h
    simp [List.length_zipWith, hl, zipWith_xor_cancel k r hl]
  · simp [hl] at h

/-- C3: Token single-liveness: issuing a token twice for the same capability
key deletes the first record before installing the second, so afterwards the
first token no longer verifies while the second still does.  `hneq` states
that the two tokens have distinct digests (the collision-freeness the scheme
relies on); the time hypotheses keep the second token unexpired at the
verification instant. -/
theorem C3_token_single_liveness
    (sf kd : String) (folderExists : String → Bool)
    (t1 t2 t3 : Int) (key r1 r2 : List Nat)
    (hkey : key.length = keySize) (hr1 : r1.length = keySize)
    (hr2 : r2.length = keySize)
    (hfe : folderExists (folderNameFromKey sf kd key) = true)
    (hsoft : t3 - t2 ≤ softTimeoutNanos)
    (hhard : t3 - t2 ≤ hardTimeoutNanos)
    (hneq : hashSHA256 (List.zipWith (fun a b => a ^^^ b) key r2)
        ≠ hashSHA256 (List.zipWith (fun a b => a ^^^ b) key r1)) :
    createToken t1 r1 key (folderNameFromKey sf kd key) emptyTokenState
      = some (List.zipWith (fun a b => a ^^^ b) key r1,
          ⟨[(hashSHA256 (List.zipWith (fun a b => a ^^^ b) key r1),
              ⟨r1, t1, t1⟩)],
           [(folderNameFromKey sf kd key,
              hashSHA256 (List.zipWith (fun a b => a ^^^ b) key r1))]⟩)
    ∧ createToken t2 r2 key (folderNameFromKey sf kd key)
        ⟨[(hashSHA256 (List.zipWith (fun a b => a ^^^ b) key r1),
            ⟨r1, t1, t1⟩)],
         [(folderNameFromKey sf kd key,
            hashSHA256 (List.zipWith (fun a b => a ^^^ b) key r1))]⟩
      = some (List.zipWith (fun a b => a ^^^ b) key r2,
          ⟨[(hashSHA256 (List.zipWith (fun a b => a ^^^ b) key r2),
              ⟨r2, t2, t2⟩)],
           [(folderNameFromKey sf kd key,
              hashSHA256 (List.zipWith (fun a b => a ^^^ b) key r2))]⟩)
    ∧ lookupA
        [(hashSHA256 (List.zipWith (fun a b => a ^^^ b) key r2),
            (⟨r2, t2, t2⟩ : TimeoutStruct))]
        (hashSHA256 (List.zipWith (fun a b => a ^^^ b) key r1)) = none
    ∧ checkTokenToFolderName (folderNameFromKey sf kd) folderExists t3
        (List.zipWith (fun a b => a ^^^ b) key r1)
        ⟨[(hashSHA256 (List.zipWith (fun a b => a ^^^ b) key r2),
            ⟨r2, t2, t2⟩)],
         [(folderNameFromKey sf kd key,
            hashSHA256 (List.zipWith (fun a b => a ^^^ b) key r2))]⟩
      = CheckResult.denied
          ⟨[(hashSHA256 (List.zipWith (fun a b => a ^^^ b) key r2),
              ⟨r2, t2, t2⟩)],
           [(folderNameFromKey sf kd key,
              hashSHA256 (List.zipWith (fun a b => a ^^^ b) key r2))]⟩
    ∧ checkTokenToFolderName (folderNameFromKey sf kd) folderExists t3
        (List.zipWith (fun a b => a ^^^ b) key r2)
        ⟨[(hashSHA256 (List.zipWith (fun a b => a ^^^ b) key r2),
            ⟨r2, t2, t2⟩)],
         [(folderNameFromKey sf kd key,
            hashSHA256 (List.zipWith (fun a b => a ^^^ b) key r2))]⟩
      = CheckResult.granted (folderNameFromKey sf kd key) key
          ⟨[(hashSHA256 (List.zipWith (fun a b => a ^^^ b) key r2),
              ⟨r2, t2, t2⟩)],
           [(folderNameFromKey sf kd key,
              hashSHA256 (List.zipWith (fun a b => a ^^^ b) key r2))]⟩ := by
  have hl1 : key.length = r1.length := by rw [hkey, hr1]
  have hl2 : key.length = r2.length := by rw [hkey, hr2]
  have hcond : ¬(t3 - t2 > softTimeoutNanos ∨ t3 - t2 > hardTimeoutNanos) := by
    push_neg
    exact ⟨hsoft, hhard⟩
  have hinv2 := xorgo_involution (xorgo_of_length hl2)
  refine ⟨?_, ?_, ?_, ?_, ?_⟩
  · simp [createToken, emptyTokenState, lookupA, xorgo_of_length hl1,
      housekeepingTokenMaps, insertA]
  · simp [createToken, lookupA, eraseA, xorgo_of_length hl2,
      housekeepingTokenMaps, insertA, hcond]
  · simp [lookupA, hneq]
  · simp [checkTokenToFolderName, housekeepingTokenMaps, lookupA, hcond, hneq]
  · simp [checkTokenToFolderName, housekeepingTokenMaps, lookupA, hcond,
      hinv2, hfe]

set_option maxRecDepth 400000 in
/-- Witness for C3 on a concrete key and two concrete distinct pads; the
digest-inequality hypothesis is discharged by evaluating the SHA-512
digests of the two tokens. -/
theorem C3_token_single_liveness_witness :
    ((fun _ => true) (folderNameFromKey "srv" "keys" (List.replicate 32 5))
      = true)
    ∧ lookupA
        [(hashSHA256 (List.zipWith (fun a b => a ^^^ b) (List.replicate 32 5)
            (List.replicate 32 9)), (⟨List.replicate 32 9, 20, 20⟩ :
            TimeoutStruct))]
        (hashSHA256 (List.zipWith (fun a b => a ^^^ b) (List.replicate 32 5)
          (List.replicate 32 3))) = none
    ∧ checkTokenToFolderName (folderNameFromKey "srv" "keys") (fun _ => true)
        30 (List.zipWith (fun a b => a ^^^ b) (List.replicate 32 5)
          (List.replicate 32 3))
        ⟨[(hashSHA256 (List.zipWith (fun a b => a ^^^ b) (List.replicate 32 5)
            (List.replicate 32 9)), ⟨List.replicate 32 9, 20, 20⟩)],
         [(folderNameFromKey "srv" "keys" (List.replicate 32 5),
            hashSHA256 (List.zipWith (fun a b => a ^^^ b) (List.replicate 32 5)
              (List.replicate 32 9)))]⟩
      = CheckResult.denied
          ⟨[(hashSHA256 (List.zipWith (fun a b => a ^^^ b)
              (List.replicate 32 5) (List.replicate 32 9)),
              ⟨List.replicate 32 9, 20, 20⟩)],
           [(folderNameFromKey "srv" "keys" (List.replicate 32 5),
              hashSHA256 (List.zipWith (fun a b => a ^^^ b)
                (List.replicate 32 5) (List.replicate 32 9)))]⟩ := by
  have h := C3_token_single_liveness "srv" "keys" (fun _ => true) 10 20 30
    (List.replicate 32 5) (List.replicate 32 3) (List.replicate 32 9)
    (by decide) (by decide) (by decide) rfl (by decide) (by decide)
    (by decide)
  exact ⟨rfl, h.2.2.1, h.2.2.2.1⟩

/-- C4: Token issue/verify round-trip: XOR over equal-length byte strings
is an involution, and verifying the token just issued for a 32-byte key
whose namespace exists recovers exactly that key and resolves to its tenant
namespace. -/
theorem C4_token_issue_verify_round_trip
    (sf kd : String) (folderExists : String → Bool)
    (tIssue tCheck : Int) (key r : List Nat)
    (hkey : key.length = keySize) (hr : r.length = keySize)
    (hfe : folderExists (folderNameFromKey sf kd key) = true)
    (hsoft : tCheck - tIssue ≤ softTimeoutNanos)
    (hhard : tCheck - tIssue ≤ hardTimeoutNanos) :
    (∀ k2 r2 t : List Nat, xorgo k2 r2 = some t → xorgo t r2 = some k2)
    ∧ ∃ token s2,
        createToken tIssue r key (folderNameFromKey sf kd key)
          emptyTokenState = some (token, s2)
        ∧ checkTokenToFolderName (folderNameFromKey sf kd) folderExists
            tCheck token s2
          = CheckResult.granted (folderNameFromKey sf kd key) key s2 := by
  have hl : key.length = r.length := by rw [hkey, hr]
  have hcond : ¬(tCheck - tIssue > softTimeoutNanos
      ∨ tCheck - tIssue > hardTimeoutNanos) := by
    push_neg
    exact ⟨hsoft, hhard⟩
  have hinv := xorgo_involution (xorgo_of_length hl)
  refine ⟨fun k2 r2 t h => xorgo_involution h,
    List.zipWith (fun a b => a ^^^ b) key r,
    ⟨[(hashSHA256 (List.zipWith (fun a b => a ^^^ b) key r),
        ⟨r, tIssue, tIssue⟩)],
     [(folderNameFromKey sf kd key,
        hashSHA256 (List.zipWith (fun a b => a ^^^ b) key r))]⟩, ?_, ?_⟩
  · simp [createToken, emptyTokenState, lookupA, xorgo_of_length hl,
      housekeepingTokenMaps, insertA]
  · simp [checkTokenToFolderName, housekeepingTokenMaps, lookupA, hcond,
      hinv, hfe]

/-- Witness for C4 at a concrete key and pad. -/
theorem C4_token_issue_verify_round_trip_witness :
    (List.replicate 32 7 : List Nat).length = keySize
    ∧ ((∀ k2 r2 t : List Nat, xorgo k2 r2 = some t → xorgo t r2 = some k2)
      ∧ ∃ token s2,
          createToken 11 (List.replicate 32 4) (List.replicate 32 7)
            (folderNameFromKey "srv" "keys" (List.replicate 32 7))
            emptyTokenState = some (token, s2)
          ∧ checkTokenToFolderName (folderNameFromKey "srv" "keys")
              (fun _ => true) 12 token s2
            = CheckResult.granted
                (folderNameFromKey "srv" "keys" (List.replicate 32 7))
                (List.replicate 32 7) s2) :=
  ⟨by decide,
   C4_token_issue_verify_round_trip "srv" "keys" (fun _ => true) 11 12
     (List.replicate 32 7) (List.replicate 32 4) (by decide) (by decide)
     rfl (by decide) (by decide)⟩

set_option maxRecDepth 400000 in
/-- C5 fails on the code: after a successful `checkTokenToFolderName` at
time 1000000 on the token issued at time 100, the token map still holds
`lastAccessedNanoTime = 100`.  The Go assignment at model.go:4128 mutates a
local copy of the map value (`mapTokenHashToTimeoutStruct` has a struct
value type) and never stores it back, so the granted result carries the
state unchanged and the stored record keeps the issuance time. -/
theorem C5_lastAccessed_not_updated :
    createToken 100 (List.replicate 32 3) (List.replicate 32 5)
      (folderNameFromKey "srv" "keys" (List.replicate 32 5)) emptyTokenState
    = some (List.replicate 32 6,
        ⟨[(hashSHA256 (List.replicate 32 6), ⟨List.replicate 32 3, 100, 100⟩)],
         [(folderNameFromKey "srv" "keys" (List.replicate 32 5),
            hashSHA256 (List.replicate 32 6))]⟩)
    ∧ checkTokenToFolderName (folderNameFromKey "srv" "keys") (fun _ => true)
        1000000 (List.replicate 32 6)
        ⟨[(hashSHA256 (List.replicate 32 6), ⟨List.replicate 32 3, 100, 100⟩)],
         [(folderNameFromKey "srv" "keys" (List.replicate 32 5),
            hashSHA256 (List.replicate 32 6))]⟩
      = CheckResult.granted
          (folderNameFromKey "srv" "keys" (List.replicate 32 5))
          (List.replicate 32 5)
          ⟨[(hashSHA256 (List.replicate 32 6), ⟨List.replicate 32 3, 100, 100⟩)],
           [(folderNameFromKey "srv" "keys" (List.replicate 32 5),
              hashSHA256 (List.replicate 32 6))]⟩
    ∧ lookupA
        [(hashSHA256 (List.replicate 32 6),
          (⟨List.replicate 32 3, 100, 100⟩ : TimeoutStruct))]
        (hashSHA256 (List.replicate 32 6))
      = some ⟨List.replicate 32 3, 100, 100⟩
    ∧ (⟨List.replicate 32 3, 100, 100⟩ :
        TimeoutStruct).lastAccessedNanoTime ≠ 1000000 := by
  refine ⟨by decide, by decide, by decide, by decide⟩

set_option maxRecDepth 400000 in
/-- C6 counterexample: the record of the token issued for the key 5,…,5
with pad 3,…,3 is stored under `hashSHA256 token`, which is the hex SHA-512
digest of the token; that index differs from the hex SHA-256 digest of the
same token, and looking the map up under the SHA-256 digest finds nothing.
-/
theorem C6_counterexample :
    createToken 0 (List.replicate 32 3) (List.replicate 32 5)
      (folderNameFromKey "srv" "keys" (List.replicate 32 5)) emptyTokenState
    = some (List.replicate 32 6,
        ⟨[(hashSHA256 (List.replicate 32 6), ⟨List.replicate 32 3, 0, 0⟩)],
         [(folderNameFromKey "srv" "keys" (List.replicate 32 5),
            hashSHA256 (List.replicate 32 6))]⟩)
    ∧ hashSHA256 (List.replicate 32 6) ≠ sha256hexDigest (List.replicate 32 6)
    ∧ lookupA
        [(hashSHA256 (List.replicate 32 6),
          (⟨List.replicate 32 3, 0, 0⟩ : TimeoutStruct))]
        (sha256hexDigest (List.replicate 32 6)) = none := by
  refine ⟨by decide, by decide, by decide⟩

/-- C6 amended: token records are indexed by the hex digest of SHA-512 of
the token — the Go helper is named `hashSHA256` but hashes with
`sha512.New()` — and `checkTokenToFolderName` looks the record up under
that same digest, so issue and verify stay consistent. -/
theorem C6_token_index_hex_sha512
    (sf kd : String) (folderExists : String → Bool)
    (tIssue tCheck : Int) (key r : List Nat)
    (hkey : key.length = keySize) (hr : r.length = keySize)
    (hfe : folderExists (folderNameFromKey sf kd key) = true)
    (hsoft : tCheck - tIssue ≤ softTimeoutNanos)
    (hhard : tCheck - tIssue ≤ hardTimeoutNanos) :
    ∃ token s2,
      createToken tIssue r key (folderNameFromKey sf kd key) emptyTokenState
        = some (token, s2)
      ∧ s2.mapTokenHashToTimeoutStruct
          = [(hexEncode (sha512Bytes token), ⟨r, tIssue, tIssue⟩)]
      ∧ lookupA s2.mapTokenHashToTimeoutStruct (hexEncode (sha512Bytes token))
          = some ⟨r, tIssue, tIssue⟩
      ∧ checkTokenToFolderName (folderNameFromKey sf kd) folderExists tCheck
          token s2
        = CheckResult.granted (folderNameFromKey sf kd key) key s2 := by
  have hl : key.length = r.length := by rw [hkey, hr]
  have hcond : ¬(tCheck - tIssue > softTimeoutNanos
      ∨ tCheck - tIssue > hardTimeoutNanos) := by
    push_neg
    exact ⟨hsoft, hhard⟩
  have hinv := xorgo_involution (xorgo_of_length hl)
  refine ⟨List.zipWith (fun a b => a ^^^ b) key r,
    ⟨[(hashSHA256 (List.zipWith (fun a b => a ^^^ b) key r),
        ⟨r, tIssue, tIssue⟩)],
     [(folderNameFromKey sf kd key,
        hashSHA256 (List.zipWith (fun a b => a ^^^ b) key r))]⟩,
    ?_, ?_, ?_, ?_⟩
  · simp [createToken, emptyTokenState, lookupA, xorgo_of_length hl,
      housekeepingTokenMaps, insertA]
  · simp [hashSHA256]
  · simp [lookupA, hashSHA256]
  · simp [checkTokenToFolderName, housekeepingTokenMaps, lookupA, hcond,
      hinv, hfe]

/-- Witness for the amended C6 at a concrete key and pad. -/
theorem C6_token_index_hex_sha512_witness :
    (List.replicate 32 8 : List Nat).length = keySize
    ∧ ∃ token s2,
        createToken 5 (List.replicate 32 1) (List.replicate 32 8)
          (folderNameFromKey "srv" "keys" (List.replicate 32 8))
          emptyTokenState = some (token, s2)
        ∧ s2.mapTokenHashToTimeoutStruct
            = [(hexEncode (sha512Bytes token), ⟨List.replicate 32 1, 5, 5⟩)]
        ∧ lookupA s2.mapTokenHashToTimeoutStruct
            (hexEncode (sha512Bytes token))
            = some ⟨List.replicate 32 1, 5, 5⟩
        ∧ checkTokenToFolderName (folderNameFromKey "srv" "keys")
            (fun _ => true) 6 token s2
          = CheckResult.granted
              (folderNameFromKey "srv" "keys" (List.replicate 32 8))
              (List.replicate 32 8) s2 :=
  ⟨by decide,
   C6_token_index_hex_sha512 "srv" "keys" (fun _ => true) 5 6
     (List.replicate 32 8) (List.replicate 32 1) (by decide) (by decide)
     rfl (by decide) (by decide)⟩

/-! ### HistoryArchive: `backupModelToHistory` -/

/-- The retention default set by `Defaults` (model.go:1039):
`backupHistoryFilesToKeep = 50`. -/
def defaultBackupHistoryFilesToKeep : Nat := 50

/-- Lexicographic byte order on strings: Go compares strings byte-wise and
UTF-8 preserves the codepoint order, so the char codes decide it. -/
def strLtChars : List Char → List Char → Bool
  | [], [] => false
  | [], _ :: _ => true
  | _ :: _, [] => false
  | a :: as, b :: bs =>
      if a.toNat < b.toNat then true
      else if b.toNat < a.toNat then false
      else strLtChars as bs

def strLt (a b : String) : Bool := strLtChars a.data b.data

theorem strLtChars_irrefl (l : List Char) : strLtChars l l = false := by
  induction l with
  | nil => rfl
  | cons c cs ih => simp [strLtChars, ih]

theorem strLt_ne {a b : String} (h : strLt a b = true) : a ≠ b := by
  intro he
  subst he
  rw [strLt, strLtChars_irrefl] at h
  exact Bool.false_ne_true h

/-- Insertion step of the name sort; `sort.Slice` orders ascending by
`files[i].Name() < files[j].Name()` (model.go:3940). -/
def insertSorted (nm : String) : List String → List String
  | [] => [nm]
  | x :: xs => if strLt nm x then nm :: x :: xs else x :: insertSorted nm xs

/-- Lexical ascending sort of the history file names. -/
def sortNames (l : List String) : List String :=
  l.foldr insertSorted []

/-- The deletion loop of `backupModelToHistory` (model.go:3943): walks the
sorted names decrementing `requiredToDelete` first, aborts on a name that
`filepath.Clean` would alter (`cleanOk nm = false`), removes the file, and
breaks once the counter is no longer positive. -/
def deleteOldest (cleanOk : String → Bool) :
    List String → Int → List (String × List Nat) →
    Except String (List (String × List Nat))
  | [], _, hist => Except.ok hist
  | nm :: rest, required, hist =>
      let required2 := required - 1
      if cleanOk nm = false then Except.error nm
      else
        let hist2 := eraseA hist nm
        if required2 ≤ 0 then Except.ok hist2
        else deleteOldest cleanOk rest required2 hist2

/-- Embedding of `backupModelToHistory` (model.go:3916) on the history
directory state (an association list from file name to contents): write the
current document bytes under the timestamped backup name, list the history
names sorted ascending, and when the entry count exceeds
`backupHistoryFilesToKeep` delete the oldest entries until the bound is
met.  `cleanOk nm` models `nm == filepath.Clean(nm)`. -/
def backupModelToHistory (keep : Nat) (cleanOk : String → Bool)
    (doc : List Nat) (historyFile : String)
    (hist : List (String × List Nat)) :
    Except String (List (String × List Nat)) :=
  let hist1 := insertA hist historyFile doc
  let files := sortNames (hist1.map Prod.fst)
  if files.length > keep then
    deleteOldest cleanOk files ((files.length : Int) - (keep : Int)) hist1
  else
    Except.ok hist1

theorem insertA_of_not_mem {α : Type} (m : List (String × α)) (k : String)
    (v : α) (h : k ∉ m.map Prod.fst) : insertA m k v = m ++ [(k, v)] := by
  induction m with
  | nil => rfl
  | cons e rest ih =>
      simp only [List.map_cons, List.mem_cons] at h
      push_neg at h
      simp [insertA, Ne.symm h.1, ih h.2]

theorem eraseA_of_not_mem {α : Type} (m : List (String × α)) (k : String)
    (h : k ∉ m.map Prod.fst) : eraseA m k = m := by
  induction m with
  | nil => rfl
  | cons e rest ih =>
      simp only [List.map_cons, List.mem_cons] at h
      push_neg at h
      simp [eraseA, h.1, ih h.2, Ne.symm h.1]

theorem sortNames_of_pairwise (l : List String)
    (h : l.Pairwise (fun a b => strLt a b = true)) : sortNames l = l := by
  induction l with
  | nil => rfl
  | cons x xs ih =>
      have hx := List.pairwise_cons.mp h
      have hrec : sortNames xs = xs := ih hx.2
      simp only [sortNames, List.foldr_cons] at *
      rw [hrec]
      cases xs with
      | nil => rfl
      | cons y ys => simp [insertSorted, hx.1 y (by simp)]

theorem deleteOldest_drop (cleanOk : String → Bool) :
    ∀ (hist : List (String × List Nat)) (D : Int),
    1 ≤ D → D ≤ hist.length →
    (hist.map Prod.fst).Pairwise (· ≠ ·) →
    (∀ nm ∈ hist.map Prod.fst, cleanOk nm = true) →
    deleteOldest cleanOk (hist.map Prod.fst) D hist
      = Except.ok (hist.drop D.toNat) := by
  intro hist
  induction hist with
  | nil =>
      intro D h1 h2 _ _
      simp only [List.length_nil, Nat.cast_zero] at h2
      omega
  | cons e rest ih =>
      intro D h1 h2 hnd hclean
      obtain ⟨nm, v⟩ := e
      have hnm : cleanOk nm = true := hclean nm (by simp)
      have hnmf : ¬ (cleanOk nm = false) := by simp [hnm]
      have hnotmem : nm ∉ rest.map Prod.fst := by
        have hpc := List.pairwise_cons.mp hnd
        intro hmem
        exact (hpc.1 nm hmem) rfl
      have herase : eraseA ((nm, v) :: rest) nm = rest := by
        simp [eraseA, eraseA_of_not_mem rest nm hnotmem]
      simp only [List.map_cons, deleteOldest, hnmf, if_false, herase]
      by_cases hD : D - 1 ≤ 0
      · have hD1 : D = 1 := by omega
        subst hD1
        norm_num
      · rw [if_neg hD]
        have h2r : D - 1 ≤ (rest.length : Int) := by
          simp only [List.length_cons] at h2
          push_cast at h2 ⊢
          omega
        have hrec := ih (D - 1) (by omega) h2r
          (List.pairwise_cons.mp hnd).2
          (fun x hx => hclean x (by simp [hx]))
        rw [hrec]
        have htN : D.toNat = (D - 1).toNat + 1 := by omega
        rw [htN]
        rfl

/-- C7: History retention bound: after a completed backup the history holds
at most the retention bound of entries, and when the bound is exceeded
exactly the lexically smallest (oldest — names are timestamp-prefixed and
`hlast` records that the new name sorts after all existing ones) entries
are deleted until the bound is met: the surviving directory is exactly
`drop (count - keep)` of the name-sorted directory. -/
theorem C7_history_retention_bound
    (keep : Nat) (hkeep : 1 ≤ keep) (cleanOk : String → Bool)
    (doc : List Nat) (name : String) (hist : List (String × List Nat))
    (hsorted : (hist.map Prod.fst).Pairwise (fun a b => strLt a b = true))
    (hlast : ∀ nm ∈ hist.map Prod.fst, strLt nm name = true)
    (hclean : ∀ nm ∈ name :: hist.map Prod.fst, cleanOk nm = true) :
    backupModelToHistory keep cleanOk doc name hist
      = Except.ok ((hist ++ [(name, doc)]).drop
          ((hist ++ [(name, doc)]).length - keep))
    ∧ ((hist ++ [(name, doc)]).drop
        ((hist ++ [(name, doc)]).length - keep)).length ≤ keep := by
  have hnotmem : name ∉ hist.map Prod.fst := by
    intro hmem
    exact strLt_ne (hlast name hmem) rfl
  have hins : insertA hist name doc = hist ++ [(name, doc)] :=
    insertA_of_not_mem hist name doc hnotmem
  have hpw : ((hist ++ [(name, doc)]).map Prod.fst).Pairwise
      (fun a b => strLt a b = true) := by
    simp only [List.map_append, List.map_cons, List.map_nil]
    exact List.pairwise_append.mpr
      ⟨hsorted, by simp, by simpa using hlast⟩
  have hsort : sortNames ((hist ++ [(name, doc)]).map Prod.fst)
      = (hist ++ [(name, doc)]).map Prod.fst :=
    sortNames_of_pairwise _ hpw
  have hlen : ((hist ++ [(name, doc)]).map Prod.fst).length
      = hist.length + 1 := by simp
  have hcleanAll : ∀ nm ∈ (hist ++ [(name, doc)]).map Prod.fst,
      cleanOk nm = true := by
    intro nm hnm
    rw [List.map_append] at hnm
    rcases List.mem_append.mp hnm with h | h
    · exact hclean nm (List.mem_cons_of_mem _ h)
    · simp only [List.map_cons, List.map_nil, List.mem_singleton] at h
      subst h
      exact hclean nm (by simp)
  constructor
  · simp only [backupModelToHistory, hins, hsort, hlen]
    by_cases hgt : hist.length + 1 > keep
    · rw [if_pos hgt]
      have hD := deleteOldest_drop cleanOk (hist ++ [(name, doc)])
        (((hist.length + 1 : Nat) : Int) - (keep : Int))
        (by push_cast; omega)
        (by simp only [List.length_append, List.length_cons, List.length_nil]
            push_cast
            omega)
        (hpw.imp (fun {a b} hlt => strLt_ne hlt))
        hcleanAll
      rw [hD]
      have htn : (((hist.length + 1 : Nat) : Int) - (keep : Int)).toNat
          = (hist ++ [(name, doc)]).length - keep := by
        simp only [List.length_append, List.length_cons, List.length_nil]
        omega
      rw [htn]
    · rw [if_neg hgt]
      have h0 : (hist ++ [(name, doc)]).length - keep = 0 := by
        simp only [List.length_append, List.length_cons, List.length_nil]
        omega
      rw [h0, List.drop_zero]
  · simp only [List.length_drop]
    omega

/-- Witness for C7: three entries against a retention bound of two; the
lexically smallest entry `"a"` is deleted. -/
theorem C7_history_retention_bound_witness :
    (1 ≤ 2)
    ∧ backupModelToHistory 2 (fun _ => true) [3] "c" [("a", [1]), ("b", [2])]
      = Except.ok [("b", [2]), ("c", [3])]
    ∧ ([("a", [1]), ("b", [2]), ("c", [3])].drop 1).length ≤ 2 := by
  have h := C7_history_retention_bound 2 (by decide) (fun _ => true) [3] "c"
    [("a", [1]), ("b", [2])] (by decide) (by decide) (by
      intro nm hnm
      rfl)
  exact ⟨by decide, h.1, h.2⟩

/-! ### CreationThrottle: `checkObjectCreationThrottler` -/

/-- FNV-1a 32-bit digest of a byte string, per `hash/fnv`. -/
def fnv32a (bs : List Nat) : Nat :=
  bs.foldl (fun h b => ((h ^^^ b) * 16777619) % 4294967296) 2166136261

/-- Embedding of `hash` (model.go:4674): FNV-32a over the string's bytes,
printed in decimal (`fmt.Sprintf` of the `uint32`).  The type names passed
("KEY", "MODEL") are ASCII, so the UTF-8 bytes are the char codes. -/
def hashGo (s : String) : String :=
  toString (fnv32a (s.data.map Char.toNat))

/-- The pruning window: 3 minutes = 180000000000 ns (model.go:3997). -/
def throttleWindowNanos : Int := 180000000000

/-- The per-window creation cap (model.go:4023). -/
def throttleLimit : Nat := 20

/-- Embedding of the pruning phase of `checkObjectCreationThrottler`
(model.go:3998): for every tracked type, the timestamps strictly older than
the cutoff are removed (the Go index juggling is in-place removal), and a
type whose window empties is dropped from the map. -/
def pruneThrottler (cutoff : Int) (m : List (String × List Int)) :
    List (String × List Int) :=
  match m with
  | [] => []
  | (k, ts) :: rest =>
      let ts2 := ts.filter (fun t => !decide (t < cutoff))
      if ts2.length = 0 then pruneThrottler cutoff rest
      else (k, ts2) :: pruneThrottler cutoff rest

/-- Embedding of `checkObjectCreationThrottler` (model.go:3991): prune all
windows at `now - 3 minutes`, then look at the window of `hash(typeName)`
(created empty when missing); when fewer than 20 timestamps remain, record
`now` and allow, otherwise reject without recording.  Returns the decision
together with the updated map. -/
def checkObjectCreationThrottler (now : Int) (typeName : String)
    (m : List (String × List Int)) : Bool × List (String × List Int) :=
  let cutoff := now - throttleWindowNanos
  let m1 := pruneThrottler cutoff m
  let keyHash := hashGo typeName
  let m2 := match lookupA m1 keyHash with
            | none => insertA m1 keyHash []
            | some _ => m1
  let current := (lookupA m2 keyHash).getD []
  if current.length < throttleLimit then
    (true, insertA m2 keyHash (current ++ [now]))
  else
    (false, m2)

/-- Iterated throttler calls at one instant, keeping only the map: models a
burst of creation requests of one resource type. -/
def throttleIter (now : Int) (typeName : String) :
    Nat → List (String × List Int)
  | 0 => []
  | n + 1 =>
      (checkObjectCreationThrottler now typeName
        (throttleIter now typeName n)).2

theorem lookupA_pruneThrottler (cutoff : Int) (k : String) :
    ∀ (m : List (String × List Int)), (m.map Prod.fst).Nodup →
    (lookupA (pruneThrottler cutoff m) k).getD []
      = ((lookupA m k).getD []).filter (fun t => !decide (t < cutoff)) := by
  have hnone : ∀ (m2 : List (String × List Int)), k ∉ m2.map Prod.fst →
      lookupA (pruneThrottler cutoff m2) k = none := by
    intro m2
    induction m2 with
    | nil => intro _; rfl
    | cons e2 r2 ih2 =>
        intro hm
        obtain ⟨k3, ts3⟩ := e2
        simp only [List.map_cons, List.mem_cons] at hm
        push_neg at hm
        simp only [pruneThrottler]
        by_cases h3 : (ts3.filter (fun t => !decide (t < cutoff))).length = 0
        · rw [if_pos h3]
          exact ih2 hm.2
        · rw [if_neg h3]
          simp only [lookupA]
          rw [if_neg (Ne.symm hm.1)]
          exact ih2 hm.2
  intro m
  induction m with
  | nil => intro _; rfl
  | cons e rest ih =>
      intro hnd
      obtain ⟨k2, ts⟩ := e
      simp only [List.map_cons, List.nodup_cons] at hnd
      simp only [pruneThrottler]
      by_cases hk : k2 = k
      · subst hk
        by_cases hlen : (ts.filter (fun t => !decide (t < cutoff))).length = 0
        · rw [if_pos hlen, hnone rest hnd.1]
          rw [List.length_eq_zero] at hlen
          simp [lookupA, hlen]
        · rw [if_neg hlen]
          simp [lookupA]
      · by_cases hlen : (ts.filter (fun t => !decide (t < cutoff))).length = 0
        · rw [if_pos hlen, ih hnd.2]
          simp only [lookupA]
          rw [if_neg hk]
        · rw [if_neg hlen]
          simp only [lookupA]
          rw [if_neg hk, if_neg hk]
          exact ih hnd.2

theorem lookupA_insertA {α : Type} (m : List (String × α)) (k : String)
    (v : α) : lookupA (insertA m k v) k = some v := by
  induction m with
  | nil => simp [insertA, lookupA]
  | cons e rest ih =>
      by_cases hk : e.1 = k
      · simp [insertA, hk, lookupA]
      · simp [insertA, hk, lookupA, ih]

set_option maxRecDepth 1000000 in
/-- C8: Throttle boundary: `checkObjectCreationThrottler` first prunes
timestamps older than 3 minutes (180000000000 ns) from the window of the
requested type, allows and records `now` exactly when the remaining count
is below 20, and rejects without recording otherwise; consequently, at one
instant the 20th creation of a type succeeds, the 21st fails, and a call
after the window has passed succeeds again (final three conjuncts, at
concrete times 0 and 180000000001 on the type "MODEL"). -/
theorem C8_throttle_boundary (now : Int) (typeName : String)
    (m : List (String × List Int)) (hnd : (m.map Prod.fst).Nodup) :
    ((checkObjectCreationThrottler now typeName m).1 = true
      ↔ (((lookupA m (hashGo typeName)).getD []).filter
          (fun t => !decide (t < now - throttleWindowNanos))).length
          < throttleLimit)
    ∧ ((((lookupA m (hashGo typeName)).getD []).filter
          (fun t => !decide (t < now - throttleWindowNanos))).length
          < throttleLimit →
        lookupA (checkObjectCreationThrottler now typeName m).2
          (hashGo typeName)
        = some (((lookupA m (hashGo typeName)).getD []).filter
            (fun t => !decide (t < now - throttleWindowNanos)) ++ [now]))
    ∧ (¬ (((lookupA m (hashGo typeName)).getD []).filter
          (fun t => !decide (t < now - throttleWindowNanos))).length
          < throttleLimit →
        (checkObjectCreationThrottler now typeName m).2
          = pruneThrottler (now - throttleWindowNanos) m)
    ∧ (checkObjectCreationThrottler 0 "MODEL"
        (throttleIter 0 "MODEL" 19)).1 = true
    ∧ (checkObjectCreationThrottler 0 "MODEL"
        (throttleIter 0 "MODEL" 20)).1 = false
    ∧ (checkObjectCreationThrottler 180000000001 "MODEL"
        (throttleIter 0 "MODEL" 20)).1 = true := by
  have hpr := lookupA_pruneThrottler (now - throttleWindowNanos)
    (hashGo typeName) m hnd
  refine ⟨?_, ?_, ?_, by decide, by decide, by decide⟩
  · simp only [checkObjectCreationThrottler]
    rcases hl : lookupA (pruneThrottler (now - throttleWindowNanos) m)
        (hashGo typeName) with _ | ts
    · rw [hl] at hpr
      simp only [Option.getD_none] at hpr
      simp [lookupA_insertA, ← hpr, throttleLimit]
    · rw [hl] at hpr
      simp only [Option.getD_some] at hpr
      subst hpr
      rw [hl]
      simp only [Option.getD_some]
      by_cases hc : (((lookupA m (hashGo typeName)).getD []).filter
          (fun t => !decide (t < now - throttleWindowNanos))).length
          < throttleLimit
      · rw [if_pos hc]
        simp [hc]
      · rw [if_neg hc]
        simp [hc]
  · intro hlt
    simp only [checkObjectCreationThrottler]
    rcases hl : lookupA (pruneThrottler (now - throttleWindowNanos) m)
        (hashGo typeName) with _ | ts
    · rw [hl] at hpr
      simp only [Option.getD_none] at hpr
      rw [← hpr] at hlt ⊢
      simp only [Option.getD_some, List.nil_append]
      simp [lookupA_insertA, throttleLimit]
    · rw [hl] at hpr
      simp only [Option.getD_some] at hpr
      subst hpr
      rw [hl]
      simp only [Option.getD_some]
      rw [if_pos hlt]
      simp [lookupA_insertA]
  · intro hge
    simp only [checkObjectCreationThrottler]
    rcases hl : lookupA (pruneThrottler (now - throttleWindowNanos) m)
        (hashGo typeName) with _ | ts
    · rw [hl] at hpr
      simp only [Option.getD_none] at hpr
      exact absurd (by rw [← hpr]; simp [throttleLimit]) hge
    · rw [hl] at hpr
      simp only [Option.getD_some] at hpr
      subst hpr
      rw [hl]
      simp only [Option.getD_some]
      rw [if_neg hge]

set_option maxRecDepth 1000000 in
/-- Witness for C8 on a window already holding 20 fresh timestamps: the
next call at the same instant is rejected, while the 20th call of a burst
from an empty map is allowed. -/
theorem C8_throttle_boundary_witness :
    ((List.map Prod.fst [(hashGo "MODEL",
      List.replicate 20 (0 : Int))]).Nodup)
    ∧ (checkObjectCreationThrottler 0 "MODEL"
        [(hashGo "MODEL", List.replicate 20 (0 : Int))]).1 = false
    ∧ (checkObjectCreationThrottler 0 "MODEL"
        (throttleIter 0 "MODEL" 19)).1 = true := by
  have h := C8_throttle_boundary 0 "MODEL"
    [(hashGo "MODEL", List.replicate 20 (0 : Int))] (by decide)
  refine ⟨by decide, ?_, h.2.2.2.1⟩
  have h1 := h.1
  by_cases hb : (checkObjectCreationThrottler 0 "MODEL"
      [(hashGo "MODEL", List.replicate 20 (0 : Int))]).1 = true
  · exact absurd (h1.mp hb) (by decide)
  · simpa using hb

end Threagile
